import Mathlib

/-!
Shallow embedding of the CSV normalization pipeline of `aitcgen.py`.

A Python `str` is modelled as a `List Char` (`PyStr`).  The embedding covers:

* `str.strip()` (`pyStrip`), `io.StringIO` line iteration (`ioLines`),
  `str.split('\n')` (`splitNl`) and `'\n'.join` (`joinNl`);
* the CPython `csv.reader` state machine for the default dialect
  (delimiter `,`, quotechar `"`, doublequote, non-strict) — `stepChar`,
  `stepEol`, `runLines`, `csvParse`; a `.error ()` result models a raised
  `_csv.Error` (for the default dialect this happens exactly when a
  record-terminating `\r` inside a line is followed by further data);
* the CPython `csv.writer` with `QUOTE_MINIMAL` and the default `\r\n`
  line terminator — `writeField`, `writeRow`, `serializeRows`;
* `count_csv_rows` (aitcgen.py lines 38-64);
* `enforce_metadata_on_csv` (aitcgen.py lines 67-117);
* the fence stripper `re.sub(r'```(?:csv)?\s*', '', raw).strip()`
  (aitcgen.py line 325) — `strip_fences`;
* the header deduplication block (aitcgen.py lines 327-375) —
  `dedupHeader`; and the composition dedup-then-enforce performed by
  `generate_test_cases_with_ai` (lines 350-386) — `normalizeCsv`.
-/

abbrev PyStr := List Char

/-- Code points of the characters stripped by Python `str.strip()`
(the `str.isspace` set). -/
def pySpaceCodes : List Nat :=
  [9, 10, 11, 12, 13, 28, 29, 30, 31, 32, 133, 160, 0x1680,
   0x2000, 0x2001, 0x2002, 0x2003, 0x2004, 0x2005, 0x2006, 0x2007,
   0x2008, 0x2009, 0x200A, 0x2028, 0x2029, 0x202F, 0x205F, 0x3000]

def isPySpace (c : Char) : Bool := pySpaceCodes.contains c.toNat

def dropRightWhile (p : Char → Bool) (l : List Char) : List Char :=
  (l.reverse.dropWhile p).reverse

/-- Python `str.strip()` with no arguments. -/
def pyStrip (l : PyStr) : PyStr := dropRightWhile isPySpace (l.dropWhile isPySpace)

def ioLinesAux : List Char → List Char → List PyStr
  | [], acc => if acc.isEmpty then [] else [acc.reverse]
  | c :: rest, acc =>
    if c = '\n' then (acc.reverse ++ ['\n']) :: ioLinesAux rest []
    else ioLinesAux rest (c :: acc)

/-- Line iteration of `io.StringIO(s)` (newline=`'\n'`): segments end after
each `'\n'` (kept), the final segment may lack it, and an empty input yields
no lines. -/
def ioLines (s : PyStr) : List PyStr := ioLinesAux s []

def splitNlAux : List Char → List Char → List PyStr
  | [], acc => [acc.reverse]
  | c :: rest, acc =>
    if c = '\n' then acc.reverse :: splitNlAux rest []
    else splitNlAux rest (c :: acc)

/-- Python `s.split('\n')`. -/
def splitNl (s : PyStr) : List PyStr := splitNlAux s []

/-- Python `'\n'.join(ls)`. -/
def joinNl : List PyStr → PyStr
  | [] => []
  | [l] => l
  | l :: rest => l ++ '\n' :: joinNl rest

/-- States of the CPython `_csv.c` reader automaton (default dialect, so the
escape-char states are unreachable and omitted). -/
inductive RState
  | startRecord
  | startField
  | inField
  | inQuotedField
  | quoteInQuoted
  | eatCrnl
deriving DecidableEq

/-- Reader state: automaton state, pending field (reversed), and the fields
of the record being built (reversed). -/
structure Rd where
  st : RState
  field : List Char
  fields : List PyStr
deriving DecidableEq

def initRd : Rd := ⟨.startRecord, [], []⟩

/-- `parse_save_field`: close the pending field. -/
def saveField (p : Rd) : Rd :=
  { p with field := [], fields := p.field.reverse :: p.fields }

/-- The `START_FIELD` transitions of `parse_process_char`. -/
def stepStartField (p : Rd) (c : Char) : Rd :=
  if c = '\n' ∨ c = '\r' then { saveField p with st := .eatCrnl }
  else if c = '"' then { p with st := .inQuotedField }
  else if c = ',' then saveField p
  else { p with st := .inField, field := c :: p.field }

/-- One character of `parse_process_char` (default dialect, non-strict).
`error` models a raised `_csv.Error` (new-line character seen in unquoted
field). -/
def stepChar (p : Rd) (c : Char) : Except Unit Rd :=
  match p.st with
  | .startRecord =>
    if c = '\n' ∨ c = '\r' then .ok { p with st := .eatCrnl }
    else .ok (stepStartField { p with st := .startField } c)
  | .startField => .ok (stepStartField p c)
  | .inField =>
    if c = '\n' ∨ c = '\r' then .ok { saveField p with st := .eatCrnl }
    else if c = ',' then .ok { saveField p with st := .startField }
    else .ok { p with field := c :: p.field }
  | .inQuotedField =>
    if c = '"' then .ok { p with st := .quoteInQuoted }
    else .ok { p with field := c :: p.field }
  | .quoteInQuoted =>
    if c = '"' then .ok { p with st := .inQuotedField, field := c :: p.field }
    else if c = ',' then .ok { saveField p with st := .startField }
    else if c = '\n' ∨ c = '\r' then .ok { saveField p with st := .eatCrnl }
    else .ok { p with st := .inField, field := c :: p.field }
  | .eatCrnl =>
    if c = '\n' ∨ c = '\r' then .ok p
    else .error ()

/-- End-of-line processing (the `'\0'` marker in `Reader_iternext`): either
the record is complete (returned, reader reset) or a quoted field continues
onto the next line. -/
def stepEol (p : Rd) : Rd × Option (List PyStr) :=
  match p.st with
  | .inQuotedField => (p, none)
  | .startRecord => (initRd, some p.fields.reverse)
  | .eatCrnl => (initRd, some p.fields.reverse)
  | _ => (initRd, some (saveField p).fields.reverse)

def stepLine (p : Rd) (line : PyStr) : Except Unit (Rd × Option (List PyStr)) := do
  let q ← line.foldlM stepChar p
  pure (stepEol q)

/-- Run the reader over the lines of the stream; at end of input an open
field or quoted field yields one final record (`Reader_iternext` EOF rule). -/
def runLines : Rd → List PyStr → Except Unit (List (List PyStr))
  | p, [] =>
    if ¬ p.field.isEmpty ∨ p.st = .inQuotedField then
      .ok [(saveField p).fields.reverse]
    else .ok []
  | p, line :: rest => do
    let (q, rec?) ← stepLine p line
    let recs ← runLines q rest
    pure (match rec? with | some r => r :: recs | none => recs)

/-- `list(csv.reader(io.StringIO(s)))`, with `.error ()` when iterating the
reader raises `_csv.Error`. -/
def csvParse (s : PyStr) : Except Unit (List (List PyStr)) :=
  runLines initRd (ioLines s)

/-- `next(csv.reader(io.StringIO(line)))` for a single line: `none` models
any exception (`_csv.Error` or `StopIteration`). -/
def parseLine (line : PyStr) : Option (List PyStr) :=
  match csvParse line with
  | .error _ => none
  | .ok [] => none
  | .ok (r :: _) => some r

/-- `QUOTE_MINIMAL`: a written field is quoted iff it contains the delimiter,
the quote character, or a character of the `\r\n` line terminator. -/
def fieldNeedsQuote (f : PyStr) : Bool :=
  f.any (fun c => c = ',' || c = '"' || c = '\r' || c = '\n')

/-- Double every quote character (the `doublequote` writer rule). -/
def escQuotes : PyStr → PyStr
  | [] => []
  | c :: rest => if c = '"' then '"' :: '"' :: escQuotes rest else c :: escQuotes rest

def writeField (f : PyStr) : PyStr :=
  if fieldNeedsQuote f then '"' :: (escQuotes f ++ ['"']) else f

/-- `csv.writer(...).writerow(r)` without the line terminator.  A row that is
a single empty field is written `""` (the writer's empty-record rule). -/
def writeRowBody (r : List PyStr) : PyStr :=
  if r = [[]] then ['"', '"']
  else List.intercalate [','] (r.map writeField)

/-- `writerow` output including the default `\r\n` terminator. -/
def writeRow (r : List PyStr) : PyStr := writeRowBody r ++ ['\r', '\n']

/-- `getvalue()` of a `StringIO` that received a sequence of `writerow`s. -/
def serializeRows (rows : List (List PyStr)) : PyStr := (rows.map writeRow).flatten

/-- The re-serialize-and-strip canonical form used by the header
deduplicator for comparisons (aitcgen.py lines 340-344 and 356-363). -/
def canonicalLine (r : List PyStr) : PyStr := pyStrip (writeRow r)

/-- The normalized header string (aitcgen.py lines 336-348): re-serialized
from the parsed first line, or the raw first line if parsing fails. -/
def dedupExpected (hline : PyStr) : PyStr :=
  match parseLine hline with
  | some r => canonicalLine r
  | none => hline

/-- Whether the dedup loop keeps a line (aitcgen.py lines 354-371): a line
is kept iff it parses and its canonical form differs from the normalized
header; unparseable lines are dropped. -/
def dedupKeep (expected line : PyStr) : Bool :=
  match parseLine line with
  | some r => if canonicalLine r = expected then false else true
  | none => false

/-- The header-deduplication block of `generate_test_cases_with_ai`
(aitcgen.py lines 327-375), acting on the fence-stripped text. -/
def dedupHeader (raw : PyStr) : PyStr :=
  match ((splitNl raw).map pyStrip).filter (fun l => !l.isEmpty) with
  | [] => raw
  | hline :: rest =>
    if rest.isEmpty then raw
    else joinNl (dedupExpected hline :: rest.filter (dedupKeep (dedupExpected hline)))

def labelsName : PyStr := "Labels".data

def coverageName : PyStr := "Coverage (Issues)".data

def headerIndexFrom (i : Nat) (name : PyStr) : List PyStr → Option Nat
  | [] => none
  | cell :: rest =>
    match headerIndexFrom (i + 1) name rest with
    | some j => some j
    | none => if pyStrip cell = name then some i else none

/-- `{name.strip(): i for i, name in enumerate(header)}.get(name)`: the
index of the last header cell whose stripped text equals `name`. -/
def headerIndex (header : List PyStr) (name : PyStr) : Option Nat :=
  headerIndexFrom 0 name header

/-- Row validation of the enforcement loop (aitcgen.py line 101):
`if not row or len(row) < len(header): continue`. -/
def enforceKeep (hlen : Nat) (r : List PyStr) : Bool :=
  !r.isEmpty && decide (hlen ≤ r.length)

/-- Overwriting of the two metadata cells (aitcgen.py lines 105-106). -/
def enforceRow (li ci : Nat) (labels coverage : PyStr) (r : List PyStr) : List PyStr :=
  (r.set li labels).set ci coverage

/-- `enforce_metadata_on_csv` (aitcgen.py lines 67-117). -/
def enforce_metadata_on_csv (csv_string labels coverage : PyStr) : PyStr :=
  if csv_string.isEmpty then []
  else
    match csvParse csv_string with
    | .error _ => csv_string
    | .ok [] => csv_string
    | .ok (header :: rows) =>
      match headerIndex header labelsName, headerIndex header coverageName with
      | some li, some ci =>
        pyStrip (serializeRows
          (header :: (rows.filter (enforceKeep header.length)).map
            (enforceRow li ci labels coverage)))
      | _, _ => csv_string

/-- The non-blank lines kept by `count_csv_rows` (aitcgen.py line 47). -/
def cleanedLines (s : PyStr) : List PyStr :=
  (ioLines s).filter (fun l => !(pyStrip l).isEmpty)

/-- `count_csv_rows` (aitcgen.py lines 38-64). -/
def count_csv_rows (csv_string : PyStr) : Int :=
  let lines := cleanedLines csv_string
  if lines.isEmpty then 0
  else
    match csvParse lines.flatten with
    | .error _ => 0
    | .ok recs => max 0 ((recs.length : Int) - 1)

def lowerChar (c : Char) : Char :=
  if 'A' ≤ c ∧ c ≤ 'Z' then Char.ofNat (c.toNat + 32) else c

/-- The optional case-insensitive `csv` tag after a fence. -/
def csvTagDrop (l : PyStr) : PyStr :=
  match l with
  | c :: s :: v :: rest =>
    if lowerChar c = 'c' ∧ lowerChar s = 's' ∧ lowerChar v = 'v' then rest else l
  | _ => l

def afterFence (l : PyStr) : PyStr := (csvTagDrop l).dropWhile isPySpace

def fenceAt : PyStr → Bool
  | a :: b :: c :: _ => decide (a = '\x60' ∧ b = '\x60' ∧ c = '\x60')
  | _ => false

def removeFencesAux : Nat → PyStr → PyStr
  | 0, l => l
  | _ + 1, [] => []
  | fuel + 1, c :: rest =>
    if fenceAt (c :: rest) then removeFencesAux fuel (afterFence (rest.drop 2))
    else c :: removeFencesAux fuel rest

/-- `re.sub(r'```(?:csv)?\s*', '', s, flags=re.IGNORECASE)`: remove every
occurrence, scanning left to right. -/
def removeFences (l : PyStr) : PyStr := removeFencesAux l.length l

/-- The fence stripper (aitcgen.py line 325): remove all fence markers, then
strip. -/
def strip_fences (s : PyStr) : PyStr := pyStrip (removeFences s)

/-- The normalization composition of `generate_test_cases_with_ai`
(lines 350-386): header deduplication followed by metadata enforcement. -/
def normalizeCsv (raw labels coverage : PyStr) : PyStr :=
  enforce_metadata_on_csv (dedupHeader raw) labels coverage

/-! ## Helper lemmas -/

theorem csvParse_nil : csvParse [] = .ok [] := rfl

theorem headerIndexFrom_eq_none (name : PyStr) (h : List PyStr)
    (hno : ∀ cell ∈ h, pyStrip cell ≠ name) : ∀ i, headerIndexFrom i name h = none := by
  induction h with
  | nil => intro i; rfl
  | cons cell rest ih =>
    intro i
    have h1 : ¬ pyStrip cell = name := hno cell (List.mem_cons_self ..)
    have h2 : ∀ c ∈ rest, pyStrip c ≠ name := fun c hc => hno c (List.mem_cons_of_mem _ hc)
    simp [headerIndexFrom, ih h2, h1]

theorem headerIndexFrom_isSome (name : PyStr) (h : List PyStr)
    (hex : ∃ cell ∈ h, pyStrip cell = name) : ∀ i, ∃ j, headerIndexFrom i name h = some j := by
  induction h with
  | nil => rcases hex with ⟨c, hc, -⟩; cases hc
  | cons cell rest ih =>
    intro i
    rcases hex with ⟨c, hc, hs⟩
    rcases List.mem_cons.mp hc with hceq | hcm
    · cases hrec : headerIndexFrom (i + 1) name rest with
      | some j => exact ⟨j, by simp [headerIndexFrom, hrec]⟩
      | none => exact ⟨i, by subst hceq; simp [headerIndexFrom, hrec, hs]⟩
    · rcases ih ⟨c, hcm, hs⟩ (i + 1) with ⟨j, hj⟩
      exact ⟨j, by simp [headerIndexFrom, hj]⟩

theorem headerIndexFrom_spec (name : PyStr) (h : List PyStr) :
    ∀ i j, headerIndexFrom i name h = some j →
      ∃ k cell, h[k]? = some cell ∧ pyStrip cell = name ∧ j = i + k := by
  induction h with
  | nil => intro i j hj; cases hj
  | cons cell rest ih =>
    intro i j hj
    rw [headerIndexFrom] at hj
    cases hrec : headerIndexFrom (i + 1) name rest with
    | some j' =>
      rw [hrec] at hj
      have hjj : j' = j := Option.some.inj hj
      rcases ih (i + 1) j' hrec with ⟨k, c, hk, hs, he⟩
      exact ⟨k + 1, c, by simpa using hk, hs, by omega⟩
    | none =>
      rw [hrec] at hj
      by_cases hs : pyStrip cell = name
      · rw [if_pos hs] at hj
        have hij : i = j := Option.some.inj hj
        exact ⟨0, cell, by simp, hs, by omega⟩
      · rw [if_neg hs] at hj
        cases hj

theorem headerIndex_spec (h : List PyStr) (name : PyStr) (j : Nat)
    (hj : headerIndex h name = some j) :
    ∃ cell, h[j]? = some cell ∧ pyStrip cell = name := by
  rcases headerIndexFrom_spec name h 0 j hj with ⟨k, cell, hk, hs, he⟩
  exact ⟨cell, by simpa [he] using hk, hs⟩

theorem headerIndex_lt (h : List PyStr) (name : PyStr) (j : Nat)
    (hj : headerIndex h name = some j) : j < h.length := by
  rcases headerIndex_spec h name j hj with ⟨cell, hk, -⟩
  exact (List.getElem?_eq_some_iff.mp hk).1

theorem headerIndex_pair_ne (h : List PyStr) (n1 n2 : PyStr) (j1 j2 : Nat)
    (h1 : headerIndex h n1 = some j1) (h2 : headerIndex h n2 = some j2)
    (hne : n1 ≠ n2) : j1 ≠ j2 := by
  rcases headerIndex_spec h n1 j1 h1 with ⟨c1, hc1, hs1⟩
  rcases headerIndex_spec h n2 j2 h2 with ⟨c2, hc2, hs2⟩
  intro he
  subst he
  rw [hc1] at hc2
  cases hc2
  exact hne (hs1 ▸ hs2 ▸ rfl)

theorem enforceKeep_le (n : Nat) (r : List PyStr) (hk : enforceKeep n r = true) :
    n ≤ r.length := by
  have := (Bool.and_eq_true _ _).mp hk
  exact of_decide_eq_true this.2

theorem enforce_eq_enforced (s L C : PyStr) (header : List PyStr)
    (rows : List (List PyStr)) (li ci : Nat)
    (hparse : csvParse s = .ok (header :: rows))
    (hli : headerIndex header labelsName = some li)
    (hci : headerIndex header coverageName = some ci) :
    enforce_metadata_on_csv s L C =
      pyStrip (serializeRows
        (header :: (rows.filter (enforceKeep header.length)).map
          (enforceRow li ci L C))) := by
  have hs : s.isEmpty = false := by
    rw [List.isEmpty_eq_false]
    intro he
    rw [he, csvParse_nil] at hparse
    cases hparse
  unfold enforce_metadata_on_csv
  rw [hs, hparse]
  simp [hli, hci]

theorem enforce_eq_input_of_none (s L C : PyStr) (header : List PyStr)
    (rows : List (List PyStr))
    (hparse : csvParse s = .ok (header :: rows))
    (hnone : headerIndex header labelsName = none ∨
      headerIndex header coverageName = none) :
    enforce_metadata_on_csv s L C = s := by
  have hs : s.isEmpty = false := by
    rw [List.isEmpty_eq_false]
    intro he
    rw [he, csvParse_nil] at hparse
    cases hparse
  unfold enforce_metadata_on_csv
  rw [hs, hparse]
  rcases hnone with hn | hn
  · cases hc : headerIndex header coverageName <;> simp [hn, hc]
  · cases hl : headerIndex header labelsName <;> simp [hn, hl]

theorem enforceRow_spec (header : List PyStr) (li ci : Nat) (L C : PyStr)
    (hli : li < header.length) (hci : ci < header.length) (hne : li ≠ ci)
    (r : List PyStr) (hr : header.length ≤ r.length) :
    (enforceRow li ci L C r)[li]? = some L ∧
    (enforceRow li ci L C r)[ci]? = some C ∧
    (∀ j, j ≠ li → j ≠ ci → (enforceRow li ci L C r)[j]? = r[j]?) ∧
    header.length ≤ (enforceRow li ci L C r).length := by
  unfold enforceRow
  refine ⟨?_, ?_, ?_, ?_⟩
  · rw [List.getElem?_set_ne (fun h => hne h.symm),
      List.getElem?_set_self (by omega)]
  · rw [List.getElem?_set_self (by simpa using by omega)]
  · intro j hjl hjc
    rw [List.getElem?_set_ne (fun h => hjc h.symm),
      List.getElem?_set_ne (fun h => hjl h.symm)]
  · simpa using hr

/-! ## Claim theorems -/

/-- Claim C3 (confirmed): for CSV input that parses with a header whose
stripped cells locate `Labels` (index `li`) and `Coverage (Issues)` (index
`ci`), the Metadata Enforcer emits the header followed by exactly the data
rows passing the length check, with the Labels cell set to `L`, the Coverage
cell set to `C`, every other cell unchanged; rows shorter than the header
fail the keep-check and are dropped. -/
theorem enforce_sets_metadata_cells (s L C : PyStr) (header : List PyStr)
    (rows : List (List PyStr)) (li ci : Nat)
    (hparse : csvParse s = .ok (header :: rows))
    (hli : headerIndex header labelsName = some li)
    (hci : headerIndex header coverageName = some ci) :
    enforce_metadata_on_csv s L C =
      pyStrip (serializeRows
        (header :: (rows.filter (enforceKeep header.length)).map
          (enforceRow li ci L C)))
    ∧ (∀ r ∈ rows.filter (enforceKeep header.length),
        (enforceRow li ci L C r)[li]? = some L ∧
        (enforceRow li ci L C r)[ci]? = some C ∧
        ∀ j, j ≠ li → j ≠ ci → (enforceRow li ci L C r)[j]? = r[j]?)
    ∧ (∀ r ∈ rows, r.length < header.length →
        enforceKeep header.length r = false) := by
  have hlne : li ≠ ci :=
    headerIndex_pair_ne header labelsName coverageName li ci hli hci (by decide)
  have hllt := headerIndex_lt header labelsName li hli
  have hclt := headerIndex_lt header coverageName ci hci
  refine ⟨enforce_eq_enforced s L C header rows li ci hparse hli hci, ?_, ?_⟩
  · intro r hr
    have hk := (List.mem_filter.mp hr).2
    have hlen := enforceKeep_le _ _ hk
    rcases enforceRow_spec header li ci L C hllt hclt hlne r hlen with ⟨h1, h2, h3, -⟩
    exact ⟨h1, h2, h3⟩
  · intro r _ hlt
    have hd : decide (header.length ≤ r.length) = false := by
      simp only [decide_eq_false_iff_not]
      omega
    simp [enforceKeep, hd]

/-- Witness for C3: the enforcer sets the two metadata cells on the kept row
and drops the short row `B,p`. -/
theorem enforce_sets_metadata_cells_witness :
    enforce_metadata_on_csv "Name,Labels,Coverage (Issues)\nA,x,y\nB,p".data
      "qa".data "PB-1".data
      = "Name,Labels,Coverage (Issues)\r\nA,qa,PB-1".data :=
  ((enforce_sets_metadata_cells
      "Name,Labels,Coverage (Issues)\nA,x,y\nB,p".data "qa".data "PB-1".data
      ["Name".data, "Labels".data, "Coverage (Issues)".data]
      [["A".data, "x".data, "y".data], ["B".data, "p".data]] 1 2
      rfl rfl rfl).1).trans rfl

/-- Claim C6 (confirmed): if no stripped header cell equals `Labels`, or none
equals `Coverage (Issues)`, the Metadata Enforcer returns its input
unchanged, for all replacement values. -/
theorem enforce_missing_column_unchanged (s L C : PyStr) (header : List PyStr)
    (rows : List (List PyStr))
    (hparse : csvParse s = .ok (header :: rows))
    (hmiss : (∀ cell ∈ header, pyStrip cell ≠ labelsName) ∨
             (∀ cell ∈ header, pyStrip cell ≠ coverageName)) :
    enforce_metadata_on_csv s L C = s := by
  rcases hmiss with hm | hm
  · exact enforce_eq_input_of_none s L C header rows hparse
      (.inl (headerIndexFrom_eq_none _ _ hm 0))
  · exact enforce_eq_input_of_none s L C header rows hparse
      (.inr (headerIndexFrom_eq_none _ _ hm 0))

/-- Witness for C6: input lacking a Coverage (Issues) column passes through. -/
theorem enforce_missing_column_unchanged_witness :
    enforce_metadata_on_csv "Name,Labels\nA,B".data "qa".data "PB-1".data
      = "Name,Labels\nA,B".data :=
  enforce_missing_column_unchanged _ _ _
    ["Name".data, "Labels".data] [["A".data, "B".data]] rfl (.inr (by decide))

/-- Claim C2 counterexample: on `Name,Labels\n"a,b",old` with Labels
replacement `qa`, the enforcer does NOT return the output the spec example
promises (it returns the input unchanged: no Coverage (Issues) column). -/
theorem enforcer_example_counterexample :
    enforce_metadata_on_csv "Name,Labels\n\"a,b\",old".data "qa".data [] ≠
      "Name,Labels\n\"a,b\",qa".data := by decide

/-- Claim C2 amended: on `Name,Labels\n"a,b",old` the enforcer returns the
input unchanged for every Coverage replacement value, because the header has
no `Coverage (Issues)` column. -/
theorem enforcer_example_unchanged (coverage : PyStr) :
    enforce_metadata_on_csv "Name,Labels\n\"a,b\",old".data "qa".data coverage
      = "Name,Labels\n\"a,b\",old".data :=
  enforce_eq_input_of_none _ _ _
    ["Name".data, "Labels".data] [["a,b".data, "old".data]] rfl (.inr rfl)

/-- Witness for C2 (amended): concrete coverage value. -/
theorem enforcer_example_unchanged_witness :
    enforce_metadata_on_csv "Name,Labels\n\"a,b\",old".data "qa".data "PB-1".data
      = "Name,Labels\n\"a,b\",old".data :=
  enforcer_example_unchanged "PB-1".data

/-- Claim C10 (confirmed): when the header has cells equal to `Labels` and
`Coverage (Issues)` up to surrounding whitespace, enforcement proceeds: both
lookups succeed and the output is the enforced serialization. -/
theorem enforce_matches_stripped_names (s L C : PyStr) (header : List PyStr)
    (rows : List (List PyStr))
    (hparse : csvParse s = .ok (header :: rows))
    (hl : ∃ cell ∈ header, pyStrip cell = labelsName)
    (hc : ∃ cell ∈ header, pyStrip cell = coverageName) :
    ∃ li ci, headerIndex header labelsName = some li ∧
      headerIndex header coverageName = some ci ∧
      enforce_metadata_on_csv s L C =
        pyStrip (serializeRows
          (header :: (rows.filter (enforceKeep header.length)).map
            (enforceRow li ci L C))) := by
  rcases headerIndexFrom_isSome labelsName header hl 0 with ⟨li, hli⟩
  rcases headerIndexFrom_isSome coverageName header hc 0 with ⟨ci, hci⟩
  exact ⟨li, ci, hli, hci, enforce_eq_enforced s L C header rows li ci hparse hli hci⟩

/-- Witness for C10: whitespace-padded header cells ` Labels ` and
` Coverage (Issues) ` still trigger enforcement. -/
theorem enforce_matches_stripped_names_witness :
    headerIndex [" Labels ".data, " Coverage (Issues) ".data] labelsName = some 0 ∧
    headerIndex [" Labels ".data, " Coverage (Issues) ".data] coverageName = some 1 ∧
    enforce_metadata_on_csv " Labels , Coverage (Issues) \nA,B".data "L".data "C".data
      = "Labels , Coverage (Issues) \r\nL,C".data := by
  rcases enforce_matches_stripped_names
      " Labels , Coverage (Issues) \nA,B".data "L".data "C".data
      [" Labels ".data, " Coverage (Issues) ".data] [["A".data, "B".data]] rfl
      ⟨" Labels ".data, by decide, by decide⟩
      ⟨" Coverage (Issues) ".data, by decide, by decide⟩
    with ⟨li, ci, hli, hci, heq⟩
  have h0 : li = 0 := by
    have h := hli.symm.trans (rfl :
      headerIndex [" Labels ".data, " Coverage (Issues) ".data] labelsName = some 0)
    have := Option.some.inj h
    omega
  have h1 : ci = 1 := by
    have h := hci.symm.trans (rfl :
      headerIndex [" Labels ".data, " Coverage (Issues) ".data] coverageName = some 1)
    have := Option.some.inj h
    omega
  subst h0
  subst h1
  exact ⟨hli, hci, heq.trans rfl⟩

/-- Claim C7 (confirmed): the Row Counter returns the number of parsed CSV
records of the blank-line-cleaned text minus one, floored at zero: 0 on the
empty string, 0 on header-only input, 3 on a header plus three data rows,
never negative, and 0 on parse failure. -/
theorem count_csv_rows_spec :
    count_csv_rows [] = 0
    ∧ count_csv_rows "Name,Status,Precondition".data = 0
    ∧ count_csv_rows "Name,Status\nA,Draft\nB,Draft\nC,Draft".data = 3
    ∧ (∀ s : PyStr, 0 ≤ count_csv_rows s)
    ∧ (∀ s : PyStr, csvParse (cleanedLines s).flatten = .error () →
        count_csv_rows s = 0)
    ∧ (∀ (s : PyStr) (recs : List (List PyStr)),
        (cleanedLines s).isEmpty = false →
        csvParse (cleanedLines s).flatten = .ok recs →
        count_csv_rows s = max 0 ((recs.length : Int) - 1)) := by
  refine ⟨rfl, by decide, by decide, ?_, ?_, ?_⟩
  · intro s
    unfold count_csv_rows
    cases h : (cleanedLines s).isEmpty
    · cases hp : csvParse (cleanedLines s).flatten <;> simp [h, hp, le_max_left]
    · simp [h]
  · intro s herr
    unfold count_csv_rows
    cases h : (cleanedLines s).isEmpty <;> simp [h, herr]
  · intro s recs hne hok
    unfold count_csv_rows
    simp [hne, hok]

/-- Witness for C7: non-negativity at a concrete input, and value 0 on a
concrete parse-failure input (`a\rb` raises in the CPython reader). -/
theorem count_csv_rows_spec_witness :
    0 ≤ count_csv_rows "x".data ∧ count_csv_rows "a\rb".data = 0 :=
  ⟨count_csv_rows_spec.2.2.2.1 "x".data,
   count_csv_rows_spec.2.2.2.2.1 "a\rb".data rfl⟩

/-- Claim C8 (confirmed): the cleanup passes are total and recover locally
from parse failures: a reader error makes the Metadata Enforcer return its
input unchanged; a line that fails to parse is never kept by the dedup
filter; a header line that fails to parse is used raw as the comparison
header. -/
theorem cleanup_error_recovery :
    (∀ s L C : PyStr, csvParse s = .error () → enforce_metadata_on_csv s L C = s)
    ∧ (∀ expected line : PyStr, parseLine line = none →
        dedupKeep expected line = false)
    ∧ (∀ hline : PyStr, parseLine hline = none → dedupExpected hline = hline) := by
  refine ⟨?_, ?_, ?_⟩
  · intro s L C herr
    cases hs : s.isEmpty
    · simp [enforce_metadata_on_csv, hs, herr]
    · have hnil := List.isEmpty_iff.mp hs
      rw [hnil, csvParse_nil] at herr
      cases herr
  · intro expected line h
    simp [dedupKeep, h]
  · intro hline h
    simp [dedupExpected, h]

/-- Witness for C8: concrete failing inputs (`\r` followed by data raises
`_csv.Error` in the CPython reader). -/
theorem cleanup_error_recovery_witness :
    enforce_metadata_on_csv "a\rb".data "L".data "C".data = "a\rb".data ∧
    dedupKeep "h".data "x\ry".data = false :=
  ⟨cleanup_error_recovery.1 "a\rb".data "L".data "C".data rfl,
   cleanup_error_recovery.2.1 "h".data "x\ry".data rfl⟩

theorem fenceAt_backticks (l : PyStr) (h : fenceAt l = true) :
    ['\x60', '\x60', '\x60'] <:+: l := by
  match l with
  | [] => cases h
  | [a] => cases h
  | [a, b] => cases h
  | a :: b :: c :: t =>
    rcases of_decide_eq_true h with ⟨rfl, rfl, rfl⟩
    exact ⟨[], t, rfl⟩

theorem removeFencesAux_id (fuel : Nat) :
    ∀ l : PyStr, l.length ≤ fuel → ¬ ['\x60', '\x60', '\x60'] <:+: l →
      removeFencesAux fuel l = l := by
  induction fuel with
  | zero => intro l _ _; rfl
  | succ n ih =>
    intro l hlen hnf
    match l with
    | [] => rfl
    | c :: rest =>
      have hf : fenceAt (c :: rest) = false := by
        cases hfa : fenceAt (c :: rest)
        · rfl
        · exact absurd (fenceAt_backticks _ hfa) hnf
      have hr : ¬ ['\x60', '\x60', '\x60'] <:+: rest :=
        fun hi => hnf (List.infix_cons hi)
      have hlen' : rest.length ≤ n := by
        simp only [List.length_cons] at hlen
        omega
      simp [removeFencesAux, hf, ih rest hlen' hr]

/-- Claim C9 counterexample: the fence stripper also removes fence markers
in the interior of the string, so it does not merely trim the ends. -/
theorem fence_interior_counterexample :
    strip_fences "a```b".data = "ab".data ∧
    strip_fences "a```b".data ≠ pyStrip "a```b".data := by
  exact ⟨by decide, by decide⟩

/-- Claim C9 amended: the stripper removes every occurrence of a fence
delimiter anywhere in the string; on inputs with no ` ``` ` substring it is
exactly whitespace trimming. -/
theorem strip_fences_no_fence (s : PyStr)
    (h : ¬ ['\x60', '\x60', '\x60'] <:+: s) : strip_fences s = pyStrip s := by
  unfold strip_fences removeFences
  rw [removeFencesAux_id s.length s (le_refl _) h]

/-- Witness for C9 (amended): a fence-free input is only trimmed. -/
theorem strip_fences_no_fence_witness :
    strip_fences "  hi  ".data = "hi".data :=
  (strip_fences_no_fence "  hi  ".data (by decide)).trans rfl

theorem dedupKeep_expected_self (hline : PyStr) :
    dedupKeep (dedupExpected hline) hline = false := by
  unfold dedupKeep dedupExpected
  cases h : parseLine hline <;> simp [h]

/-- Claim C4 (confirmed): when every non-header line is either a verbatim
repeat of the header line or a line the dedup filter keeps, the Header
Deduplicator emits the normalized header once, first, followed by the
non-repeat lines in their original order and original text. -/
theorem dedup_removes_repeated_header (raw hline : PyStr) (rest : List PyStr)
    (hl : ((splitNl raw).map pyStrip).filter (fun l => !l.isEmpty) = hline :: rest)
    (hrest : rest ≠ [])
    (hkeep : ∀ l ∈ rest, l = hline ∨ dedupKeep (dedupExpected hline) l = true) :
    dedupHeader raw =
      joinNl (dedupExpected hline :: rest.filter (fun l => decide (l ≠ hline))) := by
  have hfc : ∀ l ∈ rest, dedupKeep (dedupExpected hline) l = decide (l ≠ hline) := by
    intro l hlmem
    by_cases he : l = hline
    · subst he
      simp [dedupKeep_expected_self]
    · rcases hkeep l hlmem with h1 | h1
      · exact absurd h1 he
      · simp [h1, he]
  have hre : rest.isEmpty = false := by rwa [List.isEmpty_eq_false]
  unfold dedupHeader
  rw [hl]
  simp only [hre, Bool.false_eq_true, if_false]
  rw [List.filter_congr hfc]

/-- Witness for C4: the spec's own example, header repeated verbatim. -/
theorem dedup_removes_repeated_header_witness :
    dedupHeader "Name,Status\nA,Draft\nName,Status\nB,Draft".data
      = "Name,Status\nA,Draft\nB,Draft".data :=
  (dedup_removes_repeated_header "Name,Status\nA,Draft\nName,Status\nB,Draft".data
    "Name,Status".data ["A,Draft".data, "Name,Status".data, "B,Draft".data]
    (by decide) (by decide) (by decide)).trans (by decide)

theorem splitNlAux_no_nl (l : List Char) (h : '\n' ∉ l) :
    ∀ acc, splitNlAux l acc = [acc.reverse ++ l] := by
  induction l with
  | nil => intro acc; simp [splitNlAux]
  | cons c rest ih =>
    intro acc
    have hc : ¬ c = '\n' := by
      rintro rfl
      exact h (List.mem_cons_self _ _)
    have hr : '\n' ∉ rest := fun hm => h (List.mem_cons_of_mem _ hm)
    simp [splitNlAux, hc, ih hr]

theorem splitNlAux_append (l t : List Char) (h : '\n' ∉ l) :
    ∀ acc, splitNlAux (l ++ '\n' :: t) acc = (acc.reverse ++ l) :: splitNlAux t [] := by
  induction l with
  | nil => intro acc; simp [splitNlAux]
  | cons c rest ih =>
    intro acc
    have hc : ¬ c = '\n' := by
      rintro rfl
      exact h (List.mem_cons_self _ _)
    have hr : '\n' ∉ rest := fun hm => h (List.mem_cons_of_mem _ hm)
    simp [splitNlAux, hc, ih hr]

theorem splitNl_joinNl : ∀ ls : List PyStr, ls ≠ [] → (∀ l ∈ ls, '\n' ∉ l) →
    splitNl (joinNl ls) = ls
  | [], h, _ => absurd rfl h
  | [l], _, hno => by
    show splitNlAux (joinNl [l]) [] = [l]
    rw [show joinNl [l] = l from rfl,
      splitNlAux_no_nl l (hno l (List.mem_cons_self _ _))]
    simp
  | l1 :: l2 :: t, _, hno => by
    show splitNlAux (joinNl (l1 :: l2 :: t)) [] = l1 :: l2 :: t
    rw [show joinNl (l1 :: l2 :: t) = l1 ++ '\n' :: joinNl (l2 :: t) from rfl,
      splitNlAux_append l1 _ (hno l1 (List.mem_cons_self _ _))]
    simp only [List.reverse_nil, List.nil_append, List.cons.injEq, true_and]
    exact splitNl_joinNl (l2 :: t) (by simp)
      (fun l hl => hno l (List.mem_cons_of_mem _ hl))

theorem dedup_lines_clean (ls : List PyStr) (hne : ls ≠ [])
    (hclean : ∀ l ∈ ls, l ≠ [] ∧ pyStrip l = l ∧ '\n' ∉ l) :
    ((splitNl (joinNl ls)).map pyStrip).filter (fun l => !l.isEmpty) = ls := by
  rw [splitNl_joinNl ls hne (fun l hl => (hclean l hl).2.2)]
  rw [List.map_congr_left
    (fun l hl => ((hclean l hl).2.1 : pyStrip l = id l)), List.map_id']
  exact List.filter_eq_self.mpr (fun a ha => by simp [(hclean a ha).1])

/-- Claim C5 counterexample: a single-header CSV whose header row is valid
but not minimally quoted is rewritten by the Header Deduplicator, not
returned byte-identical. -/
theorem dedup_not_identity_counterexample :
    dedupHeader "\"Name\",Status\nA,Draft".data = "Name,Status\nA,Draft".data ∧
    dedupHeader "\"Name\",Status\nA,Draft".data ≠ "\"Name\",Status\nA,Draft".data := by
  exact ⟨by decide, by decide⟩

/-- Claim C5 amended: the Header Deduplicator is the identity on clean
single-header input: all lines non-empty, whitespace-stripped and
newline-free, the header line already in canonical minimal-quoting form,
and every data line kept by the dedup filter. -/
theorem dedup_identity_on_clean (hline : PyStr) (rest : List PyStr)
    (hclean : ∀ l ∈ hline :: rest, l ≠ [] ∧ pyStrip l = l ∧ '\n' ∉ l)
    (hcanon : dedupExpected hline = hline)
    (hkeep : ∀ l ∈ rest, dedupKeep hline l = true) :
    dedupHeader (joinNl (hline :: rest)) = joinNl (hline :: rest) := by
  unfold dedupHeader
  rw [dedup_lines_clean (hline :: rest) (by simp) hclean]
  cases rest with
  | nil => rfl
  | cons r t =>
    simp only [List.isEmpty_cons, Bool.false_eq_true, if_false]
    rw [hcanon, List.filter_eq_self.mpr hkeep]

/-- Witness for C5 (amended): a clean two-line CSV is returned unchanged. -/
theorem dedup_identity_on_clean_witness :
    dedupHeader (joinNl ["Name,Status".data, "A,Draft".data])
      = joinNl ["Name,Status".data, "A,Draft".data] :=
  dedup_identity_on_clean "Name,Status".data ["A,Draft".data]
    (by decide) (by decide) (by decide)

/-- Claim C1 counterexample: normalization (dedup then enforce) keeps a data
row longer than the header, so the output's data row has 4 cells while the
header has 3. -/
theorem normalize_row_width_counterexample :
    csvParse (normalizeCsv "A,Labels,Coverage (Issues)\n1,x,y,4".data
        "L".data "C".data)
      = .ok [["A".data, "Labels".data, "Coverage (Issues)".data],
             ["1".data, "L".data, "C".data, "4".data]] ∧
    (["1".data, "L".data, "C".data, "4".data] : List PyStr).length ≠
      (["A".data, "Labels".data, "Coverage (Issues)".data] : List PyStr).length := by
  exact ⟨rfl, by decide⟩

/-- Claim C1 amended: after normalization of text whose deduplicated form
parses with a header holding both metadata columns, the output is the header
followed by the enforced data rows; every kept data row has at least the
header's cell count and carries the supplied Labels and Coverage values. -/
theorem normalize_invariant (raw L C : PyStr) (header : List PyStr)
    (rows : List (List PyStr)) (li ci : Nat)
    (hparse : csvParse (dedupHeader raw) = .ok (header :: rows))
    (hli : headerIndex header labelsName = some li)
    (hci : headerIndex header coverageName = some ci) :
    normalizeCsv raw L C =
      pyStrip (serializeRows
        (header :: (rows.filter (enforceKeep header.length)).map
          (enforceRow li ci L C)))
    ∧ ∀ r ∈ (rows.filter (enforceKeep header.length)).map (enforceRow li ci L C),
        header.length ≤ r.length ∧ r[li]? = some L ∧ r[ci]? = some C := by
  have hlne : li ≠ ci :=
    headerIndex_pair_ne header labelsName coverageName li ci hli hci (by decide)
  have hllt := headerIndex_lt header labelsName li hli
  have hclt := headerIndex_lt header coverageName ci hci
  refine ⟨enforce_eq_enforced _ L C header rows li ci hparse hli hci, ?_⟩
  intro r hr
  rcases List.mem_map.mp hr with ⟨r0, hr0, rfl⟩
  have hk := (List.mem_filter.mp hr0).2
  have hlen := enforceKeep_le _ _ hk
  rcases enforceRow_spec header li ci L C hllt hclt hlne r0 hlen with ⟨h1, h2, -, h4⟩
  exact ⟨h4, h1, h2⟩

/-- Witness for C1 (amended): concrete normalization run. -/
theorem normalize_invariant_witness :
    normalizeCsv "A,Labels,Coverage (Issues)\n1,x,y,4".data "L".data "C".data
      = "A,Labels,Coverage (Issues)\r\n1,L,C,4".data :=
  ((normalize_invariant "A,Labels,Coverage (Issues)\n1,x,y,4".data
      "L".data "C".data
      ["A".data, "Labels".data, "Coverage (Issues)".data]
      [["1".data, "x".data, "y".data, "4".data]] 1 2 rfl rfl rfl).1).trans rfl
